import Mathlib

/-!
Verification of the item-finder scraper core logic.

Shallow embedding of the pure data-manipulation logic of
`simple_noon_scraper.py`, `simple_amazon_scraper.py`,
`simple_namshi_scraper.py` and `unified_scraper.py`:

* the price normalizer `extract_numeric_price`,
* the budget filter inside `search_item`,
* the `within_budget` annotation of the serializers,
* the candidate-location tiers of `search_item`,
* the title/price extraction cascade of the record builders,
* the regex-fallback price plausibility floors,
* `parse_items_from_file`,
* the per-source aggregation of `search_all_sites`.

Modelling conventions: Python floats are modelled as exact rationals ℚ
(the repo only manipulates short decimal numerals, where float parsing is
the decimal value); Python `None`-able values become `Option`; DOM element
lookups and regex engine results are inputs to the model (the selector /
match outcomes per strategy), since the browser and the `re` library are
external collaborators; Python string truthiness (`""`/`None` falsy) and
float truthiness (`0.0` falsy) are modelled explicitly.  Characters are
ASCII as used throughout the repo.
-/

namespace ItemFinder

/-- Does the first list start with the second (character prefix test)? -/
def beginsWith : List Char → List Char → Bool
  | _, [] => true
  | [], _ :: _ => false
  | c :: cs, p :: ps => c == p && beginsWith cs ps

/-- Substring occurrence test on character lists (Python `in` on `str`). -/
def hasSub : List Char → List Char → Bool
  | [], p => p.isEmpty
  | l@(_ :: cs), p => beginsWith l p || hasSub cs p

/-- Python `str.lower()` on a character list (ASCII). -/
def lowerChars (l : List Char) : List Char := l.map Char.toLower

/-- Python `needle in s.lower()` where `needle` is already lowercase. -/
def containsLC (s needle : String) : Bool := hasSub (lowerChars s.data) needle.data

/-- Python `c in s` for a single character. -/
def containsChar (s : String) (c : Char) : Bool := s.data.contains c

/-- Python `str.strip()` on a character list. -/
def pyStripChars (l : List Char) : List Char :=
  ((l.dropWhile Char.isWhitespace).reverse.dropWhile Char.isWhitespace).reverse

/-- Python `str.strip()`. -/
def pyStrip (s : String) : String := ⟨pyStripChars s.data⟩

/-- Python `str.isdigit()` (ASCII digits): non-empty and all digits. -/
def pyIsDigit (l : List Char) : Bool := !l.isEmpty && l.all Char.isDigit

/-- Numeric value of a decimal digit character. -/
def digitVal (c : Char) : Nat := c.toNat - 48

/-- Value of a string of decimal digits (`int(s)` on an all-digit string). -/
def natOfDigits (l : List Char) : Nat := l.foldl (fun a c => 10 * a + digitVal c) 0

/-- Auxiliary for `splitOnChar`: `cur` is the reversed current chunk. -/
def splitOnCharAux (sep : Char) (cur : List Char) : List Char → List (List Char)
  | [] => [cur.reverse]
  | c :: rest =>
    if c = sep then cur.reverse :: splitOnCharAux sep [] rest
    else splitOnCharAux sep (c :: cur) rest

/-- Python `s.split(sep)` for a one-character separator. -/
def splitOnChar (sep : Char) (l : List Char) : List (List Char) :=
  splitOnCharAux sep [] l

/-- Python `re.sub(r'\s+', ' ', s)`: collapse each whitespace run to one space. -/
def squeezeWs : List Char → List Char
  | [] => []
  | c :: rest =>
    let r := squeezeWs rest
    if c.isWhitespace then
      match r with
      | ' ' :: _ => r
      | _ => ' ' :: r
    else c :: r

/-- Scaled-integer reading of an unsigned decimal literal made of digits and
at most one dot: `some (n, k)` denotes the value `n / 10 ^ k`.  `none` models
Python `float` raising `ValueError` (empty string, more than one dot, or a
lone dot).  Exponents, `inf`/`nan` and `_` separators never occur in this
repo's data and are not modelled. -/
def parseDecimalParts (l : List Char) : Option (Nat × Nat) :=
  match splitOnChar '.' l with
  | [ip] => if pyIsDigit ip then some (natOfDigits ip, 0) else none
  | [ip, fp] =>
    if ip.all Char.isDigit && fp.all Char.isDigit && (!ip.isEmpty || !fp.isEmpty) then
      some (natOfDigits ip * 10 ^ fp.length + natOfDigits fp, fp.length)
    else none
  | _ => none

/-- The rational denoted by a scaled-integer pair `(n, k)`: `n / 10 ^ k`. -/
def ratOfParts (p : Nat × Nat) : ℚ := (p.1 : ℚ) / 10 ^ p.2

/-- Value of `float(s)` for a string of digits and dots. -/
def parseDecimalCore (l : List Char) : Option ℚ :=
  (parseDecimalParts l).map ratOfParts

/-- Scaled-integer reading of a full Python float literal (optional sign and
surrounding whitespace); the `Bool` is true for a negative sign. -/
def pyFloatParts (s : String) : Option (Bool × Nat × Nat) :=
  match pyStripChars s.data with
  | '+' :: rest => (parseDecimalParts rest).map (fun p => (false, p))
  | '-' :: rest => (parseDecimalParts rest).map (fun p => (true, p))
  | l => (parseDecimalParts l).map (fun p => (false, p))

/-- Python `float(s)` on an arbitrary string (decimal literals with optional
sign and surrounding whitespace; `none` models a raised `ValueError`). -/
def pyFloatLit (s : String) : Option ℚ :=
  (pyFloatParts s).map (fun p => if p.1 then -ratOfParts p.2 else ratOfParts p.2)

/-- The character class kept by `re.sub(r'[^\d.,]', '', price_str)`. -/
def keepPriceChar (c : Char) : Bool := c.isDigit || c == '.' || c == ','

/-- `SimpleNoonScraper.extract_numeric_price` (identical in the Amazon and
Namshi scrapers): keep digits, dots and commas, drop the commas, then
`float(...)`; any `ValueError` is caught and `None` returned.  The source's
`if '.' in clean_price` branch returns `float(clean_price)` in both arms, so
it is translated as a single parse. -/
def extract_numeric_price (s : String) : Option ℚ :=
  let kept := s.data.filter keepPriceChar
  let cleaned := kept.filter (fun c => c != ',')
  parseDecimalCore cleaned

/-- The cleaned (digits/dots/commas kept, commas removed) form of a price
string, as built inside `extract_numeric_price`. -/
def cleanedPriceChars (s : String) : List Char :=
  (s.data.filter keepPriceChar).filter (fun c => c != ',')

theorem extract_numeric_price_eq_parse (s : String) :
    extract_numeric_price s = parseDecimalCore (cleanedPriceChars s) := rfl

theorem ratOfParts_nonneg (p : Nat × Nat) : 0 ≤ ratOfParts p := by
  unfold ratOfParts
  positivity

theorem parseDecimalCore_nonneg (l : List Char) (v : ℚ)
    (h : parseDecimalCore l = some v) : 0 ≤ v := by
  unfold parseDecimalCore at h
  rcases hp : parseDecimalParts l with _ | p <;> rw [hp] at h
  · exact absurd h (by simp)
  · have hv : some (ratOfParts p) = some v := h
    exact (Option.some.inj hv) ▸ ratOfParts_nonneg p

/-- Evaluation helper: reduce a concrete `extract_numeric_price` computation
to its scaled-integer parts. -/
theorem extract_numeric_price_eval (s : String) (n k : Nat)
    (h : parseDecimalParts (cleanedPriceChars s) = some (n, k)) :
    extract_numeric_price s = some ((n : ℚ) / 10 ^ k) := by
  show parseDecimalCore (cleanedPriceChars s) = _
  rw [parseDecimalCore, h]
  rfl

/-- Evaluation helper: reduce a concrete non-negative `pyFloatLit` computation
to its scaled-integer parts. -/
theorem pyFloatLit_eval (s : String) (n k : Nat)
    (h : pyFloatParts s = some (false, n, k)) :
    pyFloatLit s = some ((n : ℚ) / 10 ^ k) := by
  rw [pyFloatLit, h]
  rfl

theorem cleaned_aed_prepend (s : String) :
    cleanedPriceChars ("AED " ++ s) = cleanedPriceChars s := rfl

/-- **C3**: for every input string `s`, `extract_numeric_price s` either
returns a non-negative number or no value (the Lean model is a total
function, so no exception can be raised), and it returns no value when the
string cleaned to digits, dots and commas is empty or when the cleaned
string does not parse as a decimal number. -/
theorem extract_numeric_price_total_nonneg (s : String) :
    (∀ v, extract_numeric_price s = some v → 0 ≤ v) ∧
    (s.data.filter keepPriceChar = [] → extract_numeric_price s = none) ∧
    (parseDecimalParts (cleanedPriceChars s) = none → extract_numeric_price s = none) := by
  refine ⟨fun v h => parseDecimalCore_nonneg _ v h, fun h => ?_, fun h => ?_⟩
  · have hc : cleanedPriceChars s = [] := by
      unfold cleanedPriceChars
      rw [h]
      rfl
    rw [extract_numeric_price_eq_parse, hc]
    rfl
  · rw [extract_numeric_price_eq_parse, parseDecimalCore, h]
    rfl

theorem extract_numeric_price_total_nonneg_witness :
    ((0 : ℚ) ≤ 1299) ∧
    extract_numeric_price "hello" = none ∧
    extract_numeric_price "1.2.3" = none := by
  refine ⟨?_, ?_, ?_⟩
  · exact (extract_numeric_price_total_nonneg "AED 1,299.00").1 1299
      (by rw [extract_numeric_price_eval _ 129900 2 (by decide)]; norm_num)
  · exact (extract_numeric_price_total_nonneg "hello").2.1 (by decide)
  · exact (extract_numeric_price_total_nonneg "1.2.3").2.2 (by decide)

/-- **C4**: the price normalizer is idempotent through display.  The scrapers
display a fallback-extracted price as `f"AED {price_num}"` and then set
`price_value = extract_numeric_price(price)`; so whenever normalizing a raw
numeral string yields `v`, re-normalizing the displayed form `"AED " ++ raw`
yields the same `v` (the `AED ` prefix contributes no kept character). -/
theorem normalize_display_roundtrip (s : String) (v : ℚ)
    (h : extract_numeric_price s = some v) :
    extract_numeric_price ("AED " ++ s) = some v := by
  rw [extract_numeric_price_eq_parse] at h ⊢
  rw [cleaned_aed_prepend]
  exact h

theorem normalize_display_roundtrip_witness :
    extract_numeric_price "AED 1,299.00" = some 1299 :=
  normalize_display_roundtrip "1,299.00" 1299
    (by rw [extract_numeric_price_eval _ 129900 2 (by decide)]; norm_num)

/-- Python float truthiness of an optional numeric value: `None` and `0.0`
are falsy, every other float truthy (as in `if max_price and ...:`). -/
def truthyQ : Option ℚ → Bool
  | none => false
  | some x => x != 0

/-- Core of a `ProductInfo` dataclass as used by the budget filter and the
serializers: display title, display price string, numeric price.  The
remaining per-source fields (url, image, rating, brand, ...) play no role in
the filtering logic and are omitted. -/
structure ProductRec where
  title : String
  price : String
  priceValue : Option ℚ
deriving DecidableEq

/-- The per-product decision inside `search_item` (identical in the Noon,
Amazon and Namshi scrapers): `if max_price and product_info.price_value:`
keep only when `price_value <= max_price`; otherwise (ceiling or price
absent or falsy) keep unconditionally. -/
def keepProduct (maxPrice : Option ℚ) (p : ProductRec) : Bool :=
  match maxPrice, p.priceValue with
  | some m, some pv => if m != 0 && pv != 0 then decide (pv ≤ m) else true
  | _, _ => true

/-- The record-collection loop of `search_item`: the candidate list is cut to
the source cap (`potential_products[:cap]`), each candidate's extraction
result (`None` models both an extractor miss and a caught per-candidate
exception) is skipped when absent, and the budget filter decides inclusion. -/
def searchItemProducts (cap : Nat) (maxPrice : Option ℚ)
    (extracted : List (Option ProductRec)) : List ProductRec :=
  (((extracted.take cap).filterMap id).filter (keepProduct maxPrice))

/-- The `within_budget` field computed by `save_unified_results`,
`save_results` and the CSV writers:
`(price_value <= max_price) if (max_price and price_value) else None`. -/
def withinBudget (maxPrice : Option ℚ) (p : ProductRec) : Option Bool :=
  match maxPrice, p.priceValue with
  | some m, some pv => if m != 0 && pv != 0 then some (decide (pv ≤ m)) else none
  | _, _ => none

/-- One serialized output record (the fields relevant to budget status). -/
structure SerializedRec where
  title : String
  price : String
  priceValue : Option ℚ
  within_budget : Option Bool
deriving DecidableEq

/-- Serialization of one product record under the search's price ceiling. -/
def serializeProduct (maxPrice : Option ℚ) (p : ProductRec) : SerializedRec :=
  ⟨p.title, p.price, p.priceValue, withinBudget maxPrice p⟩

/-- The `products` array written by the serializers. -/
def serializeProducts (maxPrice : Option ℚ) (ps : List ProductRec) : List SerializedRec :=
  ps.map (serializeProduct maxPrice)

/-- **C1, counterexample**: with a present price ceiling `m = 0` (present but
Python-falsy), `search_item` keeps a record whose known price `100` exceeds
the ceiling, because `if max_price and ...` skips the filter entirely.  So
"for every present ceiling m ... r.price_value <= m" is false on the code. -/
theorem budget_filter_zero_ceiling_cex :
    searchItemProducts 5 (some 0) [some ⟨"X", "AED 100", some 100⟩]
      = [⟨"X", "AED 100", some 100⟩] ∧
    (⟨"X", "AED 100", some 100⟩ : ProductRec).priceValue = some 100 ∧
    ¬((100 : ℚ) ≤ 0) := by
  refine ⟨rfl, rfl, by norm_num⟩

/-- **C1, amended**: for every search item whose price ceiling `m` is present
and positive (hence Python-truthy), every record returned by `search_item`
with a present numeric price satisfies `price_value ≤ m`; records whose known
price exceeds the ceiling are excluded from the returned list. -/
theorem budget_filter_strict (m : ℚ) (hm : 0 < m) (cap : Nat)
    (extracted : List (Option ProductRec)) (r : ProductRec) (pv : ℚ)
    (hr : r ∈ searchItemProducts cap (some m) extracted)
    (hpv : r.priceValue = some pv) : pv ≤ m := by
  have hkeep : keepProduct (some m) r = true := List.of_mem_filter hr
  unfold keepProduct at hkeep
  rw [hpv] at hkeep
  have hkeep2 : (if m != 0 && pv != 0 then decide (pv ≤ m) else true) = true := hkeep
  by_cases hz : pv = 0
  · exact hz ▸ le_of_lt hm
  · have hmne : (m != 0) = true := by simp [bne, hm.ne.symm]
    have hpne : (pv != 0) = true := by simp [bne, hz]
    rw [hmne, hpne] at hkeep2
    simpa using hkeep2

theorem budget_filter_strict_witness : (100 : ℚ) ≤ 150 :=
  budget_filter_strict 150 (by norm_num) 5 [some ⟨"X", "AED 100", some 100⟩]
    ⟨"X", "AED 100", some 100⟩ 100 (by decide) rfl

/-- Inversion helper: a set `within_budget` field forces both a truthy
ceiling and a truthy numeric price, and fixes its value. -/
theorem withinBudget_eq_some (m : Option ℚ) (p : ProductRec) (b : Bool)
    (h : withinBudget m p = some b) :
    ∃ mv pv, m = some mv ∧ p.priceValue = some pv ∧
      mv ≠ 0 ∧ pv ≠ 0 ∧ b = decide (pv ≤ mv) := by
  unfold withinBudget at h
  rcases hm : m with _ | mv <;> rcases hpv : p.priceValue with _ | pv <;>
    rw [hm, hpv] at h
  · exact absurd (h : (none : Option Bool) = some b) (by simp)
  · exact absurd (h : (none : Option Bool) = some b) (by simp)
  · exact absurd (h : (none : Option Bool) = some b) (by simp)
  · have h2 : (if mv != 0 && pv != 0 then some (decide (pv ≤ mv)) else none) = some b := h
    split at h2
    · refine ⟨mv, pv, rfl, rfl, ?_, ?_, (Option.some.inj h2).symm⟩
      · rename_i hcond
        exact fun hzero => by simp [hzero, bne] at hcond
      · rename_i hcond
        exact fun hzero => by simp [hzero, bne] at hcond
    · exact absurd h2 (by simp)

/-- **C2**: in every serialized output record, `within_budget` is set only
when both the record's numeric price and the request's `max_price` exist,
and when set it equals `price_value <= max_price`; when either is absent it
is unset.  (The code additionally leaves it unset when either value is
present but zero, i.e. Python-falsy, which the claim's "only when" permits.) -/
theorem within_budget_invariant (m : Option ℚ) (ps : List ProductRec)
    (q : SerializedRec) (hq : q ∈ serializeProducts m ps) :
    (∀ b, q.within_budget = some b →
      ∃ mv pv, m = some mv ∧ q.priceValue = some pv ∧ b = decide (pv ≤ mv)) ∧
    ((m = none ∨ q.priceValue = none) → q.within_budget = none) := by
  obtain ⟨p, _, rfl⟩ := List.mem_map.mp hq
  constructor
  · intro b hb
    obtain ⟨mv, pv, hm, hpv, _, _, hbval⟩ := withinBudget_eq_some m p b hb
    exact ⟨mv, pv, hm, hpv, hbval⟩
  · intro hcase
    show withinBudget m p = none
    unfold withinBudget
    rcases hm : m with _ | mv <;> rcases hpv : p.priceValue with _ | pv
    · rfl
    · rfl
    · rfl
    · exfalso
      rcases hcase with hc | hc
      · rw [hm] at hc
        exact Option.noConfusion hc
      · have : p.priceValue = none := hc
        rw [hpv] at this
        exact Option.noConfusion this

theorem within_budget_invariant_witness :
    (∃ mv pv, some (10 : ℚ) = some mv ∧
      (serializeProduct (some (10 : ℚ)) ⟨"X", "AED 5", some 5⟩).priceValue = some pv ∧
      true = decide (pv ≤ mv)) ∧
    (serializeProduct none (⟨"X", "AED 5", some 5⟩ : ProductRec)).within_budget = none := by
  constructor
  · exact (within_budget_invariant (some 10) [⟨"X", "AED 5", some 5⟩] _
      (by simp [serializeProducts])).1 true (by decide)
  · exact (within_budget_invariant none [⟨"X", "AED 5", some 5⟩] _
      (by simp [serializeProducts])).2 (Or.inl rfl)

/-- **C10** (implicit): in every saved per-source output produced from a
`search_item` result under the same ceiling, `within_budget` is never
`false`: the serializer recomputes the exact comparison that the budget
filter already used to exclude over-ceiling records. -/
theorem saved_within_budget_never_false (cap : Nat) (m : Option ℚ)
    (extracted : List (Option ProductRec)) (q : SerializedRec)
    (hq : q ∈ serializeProducts m (searchItemProducts cap m extracted)) :
    q.within_budget ≠ some false := by
  obtain ⟨p, hp, rfl⟩ := List.mem_map.mp hq
  intro hfalse
  obtain ⟨mv, pv, hm, hpv, hmne, hpne, hb⟩ :=
    withinBudget_eq_some m p false hfalse
  have hkeep : keepProduct m p = true := List.of_mem_filter hp
  subst hm
  unfold keepProduct at hkeep
  rw [hpv] at hkeep
  have hkeep2 : (if mv != 0 && pv != 0 then decide (pv ≤ mv) else true) = true := by
    exact hkeep
  have hcond : (mv != 0 && pv != 0) = true := by simp [bne, hmne, hpne]
  rw [hcond] at hkeep2
  simp only [if_true] at hkeep2
  rw [hb.symm] at hkeep2
  exact Bool.false_ne_true hkeep2

theorem saved_within_budget_never_false_witness :
    (serializeProduct (some (150 : ℚ)) ⟨"X", "AED 100", some 100⟩).within_budget
      ≠ some false :=
  saved_within_budget_never_false 5 (some 150) [some ⟨"X", "AED 100", some 100⟩]
    _ (by decide)

/-- `SearchItem` dataclass: search term plus optional price ceiling. -/
structure SearchItem where
  name : String
  max_price : Option ℚ
deriving DecidableEq

/-- Syntactic part of `parse_items_from_file`'s per-line handling: strip the
line; skip blank and `#`-comment lines; a line with a comma is split on all
commas, its parts stripped, and when at least two parts exist the first is
the name and the second the raw price text; otherwise the whole stripped
line is the name with no price text. -/
def parseLineSyn (line : String) : Option (String × Option String) :=
  let l := pyStrip line
  if l = "" || beginsWith l.data ['#'] then none
  else if l.data.contains ',' then
    let parts := (splitOnChar ',' l.data).map (fun p => (⟨pyStripChars p⟩ : String))
    if 2 ≤ parts.length then some (parts.getD 0 "", some (parts.getD 1 ""))
    else some (l, none)
  else some (l, none)

/-- One line of `parse_items_from_file`: the raw price text, when present,
goes through `float(...)`; a `ValueError` (modelled by `pyFloatLit = none`)
falls back to "no price limit" for that line only. -/
def parseLine (line : String) : Option SearchItem :=
  (parseLineSyn line).map (fun r => ⟨r.1, r.2.bind (fun t => pyFloatLit t)⟩)

/-- `parse_items_from_file`, over the file's list of lines. -/
def parse_items_from_file (lines : List String) : List SearchItem :=
  lines.filterMap parseLine

theorem parseLine_desk_150 :
    parseLine "Desk Lamp,150" = some ⟨"Desk Lamp", some 150⟩ := by
  have hsyn : parseLineSyn "Desk Lamp,150" = some ("Desk Lamp", some "150") := by
    decide
  have hf : pyFloatLit "150" = some 150 := by
    rw [pyFloatLit_eval _ 150 0 (by decide)]
    norm_num
  rw [parseLine, hsyn]
  simp [hf]

theorem parseLine_desk_abc :
    parseLine "Desk Lamp,abc" = some ⟨"Desk Lamp", none⟩ := by
  have hsyn : parseLineSyn "Desk Lamp,abc" = some ("Desk Lamp", some "abc") := by
    decide
  have hf : pyFloatLit "abc" = none := by
    rw [pyFloatLit, (by decide : pyFloatParts "abc" = none)]
    rfl
  rw [parseLine, hsyn]
  simp [hf]

theorem parseLine_chair_20 :
    parseLine "Chair,20" = some ⟨"Chair", some 20⟩ := by
  have hsyn : parseLineSyn "Chair,20" = some ("Chair", some "20") := by decide
  have hf : pyFloatLit "20" = some 20 := by
    rw [pyFloatLit_eval _ 20 0 (by decide)]
    norm_num
  rw [parseLine, hsyn]
  simp [hf]

/-- **C6**: `"Desk Lamp,150"` yields name `"Desk Lamp"` with ceiling `150`;
`"Desk Lamp,abc"` yields name `"Desk Lamp"` with no price limit; blank
lines, whitespace-only lines and `#`-comment lines produce no item; and a
malformed price on one line never rejects the rest of the file (each line is
handled independently, shown by the context-free cons equations). -/
theorem parse_items_scenarios :
    parse_items_from_file
        ["Desk Lamp,150", "", "   ", "# comment", "Desk Lamp,abc", "Chair,20"]
      = [⟨"Desk Lamp", some 150⟩, ⟨"Desk Lamp", none⟩, ⟨"Chair", some 20⟩] ∧
    (∀ rest, parse_items_from_file ("Desk Lamp,abc" :: rest)
      = ⟨"Desk Lamp", none⟩ :: parse_items_from_file rest) ∧
    (∀ rest, parse_items_from_file ("" :: rest) = parse_items_from_file rest) ∧
    (∀ rest, parse_items_from_file ("# comment" :: rest) = parse_items_from_file rest) := by
  have hblank : parseLine "" = none := by
    rw [parseLine, (by decide : parseLineSyn "" = none)]
    rfl
  have hspace : parseLine "   " = none := by
    rw [parseLine, (by decide : parseLineSyn "   " = none)]
    rfl
  have hcomment : parseLine "# comment" = none := by
    rw [parseLine, (by decide : parseLineSyn "# comment" = none)]
    rfl
  refine ⟨?_, fun rest => ?_, fun rest => ?_, fun rest => ?_⟩
  · simp [parse_items_from_file, List.filterMap_cons, parseLine_desk_150,
      parseLine_desk_abc, parseLine_chair_20, hblank, hspace, hcomment]
  · simp [parse_items_from_file, List.filterMap_cons, parseLine_desk_abc]
  · simp [parse_items_from_file, List.filterMap_cons, hblank]
  · simp [parse_items_from_file, List.filterMap_cons, hcomment]

/-- Outcome of one source's scrape attempt inside `search_all_sites`:
driver setup succeeded and the search returned a product list, or
`setup_driver` returned false, or an exception escaped the search call. -/
inductive SourceOutcome where
  | ok (products : List ProductRec)
  | setupFailed
  | raised
deriving DecidableEq

/-- The product list recorded for a source: the search results on success,
and the empty list on a setup failure or a caught exception (both `except`
paths in `search_all_sites` store `'products': []`). -/
def sourceProducts : SourceOutcome → List ProductRec
  | .ok ps => ps
  | .setupFailed => []
  | .raised => []

/-- One per-source entry of the `all_results` mapping. -/
structure SourceEntry where
  site : String
  products : List ProductRec
  max_price : Option ℚ
deriving DecidableEq

/-- `search_all_sites`: the three sources are attempted in fixed order and
each contributes exactly one keyed entry regardless of its outcome. -/
def search_all_sites (m : Option ℚ) (noon namshi amazon : SourceOutcome) :
    List (String × SourceEntry) :=
  [("noon", ⟨"Noon.com", sourceProducts noon, m⟩),
   ("namshi", ⟨"Namshi.com", sourceProducts namshi, m⟩),
   ("amazon", ⟨"Amazon.ae", sourceProducts amazon, m⟩)]

/-- **C7**: per-source failure isolation.  For every combination of
per-source outcomes, the aggregate result has exactly the three keys
`noon`, `namshi`, `amazon` (never a missing key); a source that failed
setup or raised maps to an entry with an empty product list; and each
successful source keeps its full result list independently of the other
sources' outcomes. -/
theorem aggregator_isolation (m : Option ℚ) (noon namshi amazon : SourceOutcome) :
    ((search_all_sites m noon namshi amazon).map Prod.fst
      = ["noon", "namshi", "amazon"]) ∧
    (search_all_sites m noon namshi amazon).lookup "noon"
      = some ⟨"Noon.com", sourceProducts noon, m⟩ ∧
    (search_all_sites m noon namshi amazon).lookup "namshi"
      = some ⟨"Namshi.com", sourceProducts namshi, m⟩ ∧
    (search_all_sites m noon namshi amazon).lookup "amazon"
      = some ⟨"Amazon.ae", sourceProducts amazon, m⟩ ∧
    sourceProducts SourceOutcome.setupFailed = [] ∧
    sourceProducts SourceOutcome.raised = [] ∧
    (∀ ps, sourceProducts (SourceOutcome.ok ps) = ps) :=
  ⟨rfl, rfl, rfl, rfl, rfl, rfl, fun _ => rfl⟩

/-- Keyword containment used by the candidate locators:
`any(keyword in text.lower() for keyword in kws)` with lowercase keywords. -/
def containsKeyword (kws : List String) (text : String) : Bool :=
  kws.any (fun k => containsLC text k)

/-- Does the text contain a digit (`re.search(r'\d+', text)`)? -/
def hasDigit (t : String) : Bool := t.data.any Char.isDigit

/-- The selector-strategy tier of candidate location: candidates are modelled
by their stripped element texts; `selectorResults` holds, per container
selector in declared order, the texts of the elements it finds.  The loop
accepts the qualifying elements of the first selector that contributes at
least one of them, and is NOT capped. -/
def strategyScan (pred : String → Bool) : List (List String) → List String
  | [] => []
  | es :: rest =>
    let q := (es.map pyStrip).filter pred
    if q.isEmpty then strategyScan pred rest else q

/-- The generic-scan fallback loop: walk all page `div` texts, keep those
passing the looser predicate, and break as soon as the cap is reached
(`if len(potential_products) >= cap: break`). -/
def fallbackScanAux (pred : String → Bool) (cap : Nat) (acc : List String) :
    List String → List String
  | [] => acc.reverse
  | d :: rest =>
    let t := pyStrip d
    if pred t then
      if cap ≤ acc.length + 1 then (t :: acc).reverse
      else fallbackScanAux pred cap (t :: acc) rest
    else fallbackScanAux pred cap acc rest

/-- The generic-scan fallback tier of candidate location. -/
def fallbackScan (pred : String → Bool) (cap : Nat) (divs : List String) :
    List String :=
  fallbackScanAux pred cap [] divs

/-- Noon strategy-tier plausibility: `30 < len < 1000` and a fixed keyword. -/
def noonStrategyPred (t : String) : Bool :=
  decide (30 < t.length) && decide (t.length < 1000) &&
  containsKeyword ["iphone", "samsung", "apple", "gb", "pro", "max", "plus",
    "aed", "price", "rating", "review"] t

/-- Noon fallback plausibility: `30 < len < 500` plus search-term keywords. -/
def noonFallbackPred (itemName : String) (t : String) : Bool :=
  decide (30 < t.length) && decide (t.length < 500) &&
  containsKeyword [⟨lowerChars itemName.data⟩, "iphone", "samsung", "aed"] t

/-- Candidate location inside `SimpleNoonScraper.search_item`: the strategy
tier, then (only when it produced nothing) the generic scan capped at 5. -/
def locateNoon (itemName : String) (selectorResults : List (List String))
    (divs : List String) : List String :=
  let s := strategyScan noonStrategyPred selectorResults
  if s.isEmpty then fallbackScan (noonFallbackPred itemName) 5 divs else s

/-- The candidates actually consumed by Noon extraction:
`potential_products[:5]`. -/
def noonProcessed (itemName : String) (selectorResults : List (List String))
    (divs : List String) : List String :=
  (locateNoon itemName selectorResults divs).take 5

/-- Amazon strategy-tier plausibility: `len > 30` plus keywords. -/
def amazonStrategyPred (itemName : String) (t : String) : Bool :=
  decide (30 < t.length) &&
  containsKeyword ["aed", "price", ⟨lowerChars itemName.data⟩] t

/-- Amazon fallback plausibility: `100 < len < 1500`, keywords, a digit. -/
def amazonFallbackPred (itemName : String) (t : String) : Bool :=
  decide (100 < t.length) && decide (t.length < 1500) &&
  containsKeyword ["aed", "delivery", "prime", "add to cart",
    ⟨lowerChars itemName.data⟩] t &&
  hasDigit t

/-- Candidate location inside `SimpleAmazonScraper.search_item`. -/
def locateAmazon (itemName : String) (selectorResults : List (List String))
    (divs : List String) : List String :=
  let s := strategyScan (amazonStrategyPred itemName) selectorResults
  if s.isEmpty then fallbackScan (amazonFallbackPred itemName) 10 divs else s

/-- The candidates actually consumed by Amazon extraction:
`potential_products[:10]`. -/
def amazonProcessed (itemName : String) (selectorResults : List (List String))
    (divs : List String) : List String :=
  (locateAmazon itemName selectorResults divs).take 10

/-- Namshi fallback plausibility: `50 < len < 800`, keywords, a digit. -/
def namshiFallbackPred (itemName : String) (t : String) : Bool :=
  decide (50 < t.length) && decide (t.length < 800) &&
  containsKeyword ["aed", "delivery", "free", "discount",
    ⟨lowerChars itemName.data⟩] t &&
  hasDigit t

/-- Candidate location inside `SimpleNamshiScraper.search_item`: the strategy
tier takes every element of the first non-empty selector (no text filter). -/
def locateNamshi (itemName : String) (selectorResults : List (List String))
    (divs : List String) : List String :=
  let s := strategyScan (fun _ => true) selectorResults
  if s.isEmpty then fallbackScan (namshiFallbackPred itemName) 10 divs else s

/-- The candidates actually consumed by Namshi extraction:
`potential_products[:10]`. -/
def namshiProcessed (itemName : String) (selectorResults : List (List String))
    (divs : List String) : List String :=
  (locateNamshi itemName selectorResults divs).take 10

theorem fallbackScanAux_length_le (pred : String → Bool) (cap : Nat) :
    ∀ (divs : List String) (acc : List String), acc.length < cap →
      (fallbackScanAux pred cap acc divs).length ≤ cap := by
  intro divs
  induction divs with
  | nil =>
    intro acc hacc
    simpa [fallbackScanAux] using le_of_lt hacc
  | cons d rest ih =>
    intro acc hacc
    unfold fallbackScanAux
    by_cases hp : pred (pyStrip d) = true
    · rw [if_pos hp]
      by_cases hcap : cap ≤ acc.length + 1
      · rw [if_pos hcap]
        simpa using Nat.succ_le_of_lt hacc
      · rw [if_neg hcap]
        exact ih (pyStrip d :: acc) (lt_of_not_ge hcap)
    · rw [if_neg hp]
      exact ih acc hacc

theorem fallbackScan_length_le (pred : String → Bool) (cap : Nat)
    (hcap : 0 < cap) (divs : List String) :
    (fallbackScan pred cap divs).length ≤ cap :=
  fallbackScanAux_length_le pred cap divs [] (by simpa using hcap)

/-- **C5, counterexample**: the strategy tier of candidate location is NOT
capped at the source maximum.  On a Noon page where one container selector
finds six plausible elements, `search_item`'s strategy tier collects all
six candidates, exceeding the declared maximum of 5 (the cap is only applied
later, by the `[:5]` slice at extraction time). -/
theorem locate_candidates_cap_cex :
    (locateNoon "iphone"
        [["this sample aed product element text",
          "this sample aed product element text",
          "this sample aed product element text",
          "this sample aed product element text",
          "this sample aed product element text",
          "this sample aed product element text"]] []).length = 6 ∧
    ¬(6 ≤ 5) := by
  exact ⟨by decide, by norm_num⟩

/-- **C5, amended**: the generic-scan fallback tier is capped at the
source-declared maximum (5 for Noon, 10 for Amazon and Namshi), and the
sequence of candidates actually processed by extraction is capped at that
maximum by the `[:cap]` slice; the selector strategy tier itself may locate
more than the maximum. -/
theorem locate_candidates_cap (itemName : String)
    (selectorResults : List (List String)) (divs : List String) :
    (fallbackScan (noonFallbackPred itemName) 5 divs).length ≤ 5 ∧
    (noonProcessed itemName selectorResults divs).length ≤ 5 ∧
    (fallbackScan (amazonFallbackPred itemName) 10 divs).length ≤ 10 ∧
    (amazonProcessed itemName selectorResults divs).length ≤ 10 ∧
    (fallbackScan (namshiFallbackPred itemName) 10 divs).length ≤ 10 ∧
    (namshiProcessed itemName selectorResults divs).length ≤ 10 := by
  refine ⟨fallbackScan_length_le _ 5 (by norm_num) divs, ?_,
    fallbackScan_length_le _ 10 (by norm_num) divs, ?_,
    fallbackScan_length_le _ 10 (by norm_num) divs, ?_⟩
  · exact (List.length_take_le _ _).trans (le_refl 5)
  · exact (List.length_take_le _ _).trans (le_refl 10)
  · exact (List.length_take_le _ _).trans (le_refl 10)

theorem splitOnCharAux_no_sep (sep : Char) :
    ∀ (l cur : List Char), (∀ c ∈ l, c ≠ sep) →
      splitOnCharAux sep cur l = [cur.reverse ++ l] := by
  intro l
  induction l with
  | nil =>
    intro cur _
    simp [splitOnCharAux]
  | cons c rest ih =>
    intro cur h
    unfold splitOnCharAux
    rw [if_neg (h c (by simp))]
    rw [ih (c :: cur) (fun x hx => h x (by simp [hx]))]
    simp

theorem splitOnChar_no_sep (sep : Char) (l : List Char)
    (h : ∀ c ∈ l, c ≠ sep) : splitOnChar sep l = [l] := by
  rw [splitOnChar, splitOnCharAux_no_sep sep l [] h]
  simp

/-- Acceptance check of Noon's regex price fallback (`extract_simple_product_info`):
`clean_num = price_num.replace(',', '').replace('.', '')` must satisfy
`clean_num.isdigit() and int(clean_num) > 50`.  Note the dot is removed
BEFORE the comparison, so the floor applies to the concatenated digit string,
not to the parsed numeric value. -/
def noonPatternAccept (priceNum : String) : Bool :=
  let cleanNum := priceNum.data.filter (fun c => c != ',' && c != '.')
  pyIsDigit cleanNum && decide (50 < natOfDigits cleanNum)

/-- Shape of the integer part of Noon's price pattern
`\d{1,3}(?:,\d{3})*`: comma-separated digit groups, first of length 1-3,
the rest of length exactly 3. -/
def commaGroupsOk : List (List Char) → Bool
  | [] => false
  | g :: gs =>
    (decide (1 ≤ g.length) && decide (g.length ≤ 3) && g.all Char.isDigit) &&
    gs.all (fun h => decide (h.length = 3) && h.all Char.isDigit)

/-- Full-match shape of the capture group of Noon's fallback price patterns,
`\d{1,3}(?:,\d{3})*(?:\.\d{2})?`: a witness that a string is a possible
regex match. -/
def noonGroupShape (s : String) : Bool :=
  match splitOnChar '.' s.data with
  | [ip] => commaGroupsOk (splitOnChar ',' ip)
  | [ip, fp] =>
    commaGroupsOk (splitOnChar ',' ip) && decide (fp.length = 2) &&
    fp.all Char.isDigit
  | _ => false

/-- Acceptance check of Namshi's regex price fallback
(`extract_namshi_product_info`): the dotless form must be all digits and
`float(price_num) > 10` — here the floor IS applied to the parsed value.
(`float` cannot raise for a regex-shaped group; a failing parse is modelled
as rejection.) -/
def namshiFallbackAccept (s : String) : Bool :=
  pyIsDigit (s.data.filter (fun c => c != '.')) &&
  (match pyFloatLit s with
   | some v => decide (10 < v)
   | none => false)

/-- **C8, counterexample**: Noon's fallback floor is applied to the digit
string with separators removed, not to the parsed value.  The string
`"2.99"` is a valid match of Noon's price pattern (e.g. in the candidate
text `"2.99 aed"`); its digit string `"299"` passes the `> 50` check, so it
is accepted — but the resulting record's `price_value`, computed by
`extract_numeric_price("AED 2.99")`, is `2.99`, far below the floor `50`. -/
theorem price_floor_cex :
    noonGroupShape "2.99" = true ∧
    noonPatternAccept "2.99" = true ∧
    extract_numeric_price "AED 2.99" = some (299 / 100) ∧
    ¬((50 : ℚ) < 299 / 100) := by
  refine ⟨by decide, by decide, ?_, by norm_num⟩
  rw [extract_numeric_price_eval _ 299 2 (by decide)]
  norm_num

/-- **C8, amended**: for Namshi the claim holds as stated — a regex-fallback
match is accepted only when its parsed numeric value exceeds 10, and the
accepted record's `price_value` is that value.  For Noon the floor `> 50`
applies to the integer formed by the match's digits with commas and dots
removed; this coincides with the parsed value only for matches without a
decimal part, for which the record's `price_value` (recomputed from the
`"AED <match>"` display) does exceed 50. -/
theorem price_floor (s : String) :
    (namshiFallbackAccept s = true → ∃ v, pyFloatLit s = some v ∧ 10 < v) ∧
    (noonPatternAccept s = true → containsChar s '.' = false →
      ∃ v, extract_numeric_price ("AED " ++ s) = some v ∧ 50 < v) := by
  constructor
  · intro h
    unfold namshiFallbackAccept at h
    rcases hf : pyFloatLit s with _ | v <;> rw [hf] at h
    · exact absurd (h : (_ && false) = true) (by simp)
    · have h2 : (pyIsDigit (s.data.filter fun c => c != '.') &&
          decide (10 < v)) = true := h
      rw [Bool.and_eq_true] at h2
      obtain ⟨_, hlt⟩ := h2
      exact ⟨v, rfl, of_decide_eq_true hlt⟩
  · intro hacc hdot
    have h2 : (pyIsDigit (s.data.filter fun c => c != ',' && c != '.') &&
        decide (50 < natOfDigits (s.data.filter fun c => c != ',' && c != '.')))
        = true := hacc
    rw [Bool.and_eq_true] at h2
    obtain ⟨hdig, hgt⟩ := h2
    have hdig2 := hdig
    unfold pyIsDigit at hdig2
    rw [Bool.and_eq_true] at hdig2
    obtain ⟨_, hall⟩ := hdig2
    have hclass : ∀ c ∈ s.data, c.isDigit = true ∨ c = ',' := by
      intro c hc
      by_cases hcomma : c = ','
      · exact Or.inr hcomma
      · left
        have hcdot : c ≠ '.' := by
          intro he
          subst he
          have hmem : s.data.contains '.' = true := List.elem_eq_true_of_mem hc
          rw [containsChar] at hdot
          rw [hdot] at hmem
          exact Bool.false_ne_true hmem
        have hcmem : c ∈ s.data.filter (fun c => c != ',' && c != '.') :=
          List.mem_filter.mpr ⟨hc, by simp [bne, hcomma, hcdot]⟩
        exact List.all_eq_true.mp hall c hcmem
    have hkept : s.data.filter keepPriceChar = s.data := by
      rw [List.filter_eq_self]
      intro a ha
      rcases hclass a ha with hd | hcm
      · simp [keepPriceChar, hd]
      · simp [keepPriceChar, hcm]
    have hcleaned : cleanedPriceChars s
        = s.data.filter (fun c => c != ',' && c != '.') := by
      rw [cleanedPriceChars, hkept]
      apply List.filter_congr
      intro a ha
      rcases hclass a ha with hd | hcm
      · have hadot : a ≠ '.' := by
          intro he
          subst he
          exact Bool.false_ne_true hd
        simp [bne, hadot]
      · subst hcm
        simp
    have hnodot : ∀ c ∈ s.data.filter (fun c => c != ',' && c != '.'), c ≠ '.' := by
      intro c hc he
      have := (List.mem_filter.mp hc).2
      subst he
      simp [bne] at this
    have hsplit : splitOnChar '.' (s.data.filter (fun c => c != ',' && c != '.'))
        = [s.data.filter (fun c => c != ',' && c != '.')] :=
      splitOnChar_no_sep '.' _ hnodot
    have hparts : parseDecimalParts (s.data.filter (fun c => c != ',' && c != '.'))
        = some (natOfDigits (s.data.filter (fun c => c != ',' && c != '.')), 0) := by
      unfold parseDecimalParts
      rw [hsplit]
      simp [hdig]
    refine ⟨(natOfDigits (s.data.filter (fun c => c != ',' && c != '.')) : ℚ), ?_, ?_⟩
    · rw [extract_numeric_price_eq_parse, cleaned_aed_prepend, hcleaned,
        parseDecimalCore, hparts]
      show some (ratOfParts _) = _
      rw [ratOfParts]
      norm_num
    · exact_mod_cast of_decide_eq_true hgt

theorem price_floor_witness :
    (∃ v, pyFloatLit "299.00" = some v ∧ 10 < v) ∧
    (∃ v, extract_numeric_price ("AED " ++ "1,299") = some v ∧ 50 < v) := by
  constructor
  · apply (price_floor "299.00").1
    have hf : pyFloatLit "299.00" = some ((29900 : ℚ) / 10 ^ 2) :=
      pyFloatLit_eval _ 29900 2 (by decide)
    unfold namshiFallbackAccept
    rw [hf]
    have h1 : pyIsDigit ("299.00".data.filter (fun c => c != '.')) = true := by
      decide
    rw [h1]
    simp only [Bool.true_and]
    exact decide_eq_true (by norm_num)
  · exact (price_floor "1,299").2 (by decide) (by decide)

/-- Qualification test of the title-selector loops (Noon and Amazon):
`if title and len(title) > 10: break`. -/
def titleQualifies : Option String → Bool
  | none => false
  | some s => s != "" && decide (10 < s.length)

/-- The title-selector loop shared by `extract_simple_product_info` (Noon)
and `extract_amazon_product_info`.  `results` holds, per title selector, the
text (or `title` attribute) that the loop would assign — `none` when the
selector throws, `some ""` for a found element whose text and attribute are
falsy.  The Python variable `title` (initially `None`) is modelled by the
accumulator, with `""` standing for falsy; crucially, a found value is
retained even when it fails the `len > 10` qualification. -/
def titleScan : String → List (Option String) → String
  | acc, [] => acc
  | acc, none :: rest => titleScan acc rest
  | _, some s :: rest => if titleQualifies (some s) then s else titleScan s rest

/-- `[line.strip() for line in full_text.split('\n') if line.strip()]`. -/
def textLines (fullText : String) : List String :=
  ((splitOnChar '\n' fullText.data).map
    (fun l => (⟨pyStripChars l⟩ : String))).filter (fun l => l != "")

/-- Noon's fallback title line predicate: length over 10, not a pure
digit/punctuation string, and no currency/percent/discount markers. -/
def noonTitleLinePred (line : String) : Bool :=
  decide (10 < line.length) &&
  !(pyIsDigit (line.data.filter (fun c => c != '.' && c != ',' && c != ' '))) &&
  !(containsLC line "aed") && !(containsChar line '%') && !(containsLC line "off")

/-- Amazon's fallback title line predicate (adds a length ceiling and more
excluded keywords). -/
def amazonTitleLinePred (line : String) : Bool :=
  decide (10 < line.length) && decide (line.length < 200) &&
  !(pyIsDigit (line.data.filter (fun c => c != '.' && c != ',' && c != ' '))) &&
  !(containsLC line "aed") && !(containsChar line '%') &&
  !(containsLC line "delivery") && !(containsLC line "add to cart") &&
  !(containsLC line "only") && !(containsLC line "left")

/-- Title resolution: the selector loop's final value if truthy, else the
first fallback line passing the predicate, else `"Unknown Product"`. -/
def titleWithFallback (linePred : String → Bool)
    (titleResults : List (Option String)) (fullText : String) : String :=
  let t := titleScan "" titleResults
  if t != "" then t
  else
    match (textLines fullText).find? linePred with
    | some l => l
    | none => "Unknown Product"

/-- Title cleanup: `re.sub(r'\s+', ' ', title).strip()` and truncation with
an ellipsis above the display maximum. -/
def cleanTitle (maxLen : Nat) (t : String) : String :=
  let t2 : String := ⟨pyStripChars (squeezeWs t.data)⟩
  if maxLen < t2.length then (⟨t2.data.take maxLen⟩ : String) ++ "..." else t2

/-- The title produced by Noon's record builder (display maximum 100). -/
def noonTitle (titleResults : List (Option String)) (fullText : String) : String :=
  cleanTitle 100 (titleWithFallback noonTitleLinePred titleResults fullText)

/-- The title produced by Amazon's record builder (display maximum 150). -/
def amazonTitle (titleResults : List (Option String)) (fullText : String) : String :=
  cleanTitle 150 (titleWithFallback amazonTitleLinePred titleResults fullText)

/-- Qualification of a Noon structured price selector result:
`price_text and price_text.replace(',', '').replace('.', '').isdigit()`. -/
def priceDigitsQualify (s : String) : Bool :=
  s != "" && pyIsDigit (s.data.filter (fun c => c != ',' && c != '.'))

/-- Noon's structured price tier: first qualifying selector text wins, with
`AED ` prepended unless already present. -/
def noonStructuredPrice : List (Option String) → Option String
  | [] => none
  | none :: rest => noonStructuredPrice rest
  | some s :: rest =>
    if priceDigitsQualify s then
      some (if containsLC s "aed" then s else "AED " ++ s)
    else noonStructuredPrice rest

/-- Noon's regex-pattern price tier: `patternGroups` holds, per pattern in
declared order, the capture group of `re.search` over the full text (`none`
when the pattern has no match); a match is used only when it passes
`noonPatternAccept`, otherwise the next pattern is tried. -/
def noonPatternPrice : List (Option String) → Option String
  | [] => none
  | none :: rest => noonPatternPrice rest
  | some g :: rest =>
    if noonPatternAccept g then some ("AED " ++ g) else noonPatternPrice rest

/-- Acceptance in Noon's last-resort tier: a comma-cleaned all-digit number
in the range 100..50000. -/
def lastResortAccept (num : String) : Bool :=
  let cleanNum := num.data.filter (fun c => c != ',')
  pyIsDigit cleanNum && decide (100 ≤ natOfDigits cleanNum) &&
  decide (natOfDigits cleanNum ≤ 50000)

/-- One line of Noon's last-resort tier: `numbers` holds the groups of
`re.findall(r'\b(\d{1,3}(?:,\d{3})*)\b', line)` in order. -/
def noonLastResortLine : List String → Option String
  | [] => none
  | n :: rest =>
    if lastResortAccept n then some ("AED " ++ n) else noonLastResortLine rest

/-- Noon's last-resort tier over the lines of the candidate text. -/
def noonLastResort : List (List String) → Option String
  | [] => none
  | ln :: rest =>
    match noonLastResortLine ln with
    | some p => some p
    | none => noonLastResort rest

/-- The price display produced by Noon's record builder: structured
selectors, then regex patterns, then the last-resort number scan, then the
default `"Price not available"`. -/
def noonPrice (priceResults patternGroups : List (Option String))
    (lineNums : List (List String)) : String :=
  match noonStructuredPrice priceResults with
  | some p => p
  | none =>
    match noonPatternPrice patternGroups with
    | some p => p
    | none =>
      match noonLastResort lineNums with
      | some p => p
      | none => "Price not available"

/-- Join of Amazon's whole/fraction price sub-elements:
`f"{whole_price}.{fraction}"` when a fraction element exists. -/
def amazonJoinPrice : String × Option String → String
  | (w, some f) => w ++ "." ++ f
  | (w, none) => w

/-- Shape test `re.match(r'^\d+(\.\d+)?$', ...)`. -/
def decimalShape (l : List Char) : Bool :=
  match splitOnChar '.' l with
  | [ip] => pyIsDigit ip
  | [ip, fp] => pyIsDigit ip && pyIsDigit fp
  | _ => false

/-- Qualification of an Amazon structured price selector result:
`price_text and re.match(r'^\d+(\.\d+)?$', price_text.replace(',', ''))`. -/
def amazonStructQualify (wf : String × Option String) : Bool :=
  amazonJoinPrice wf != "" &&
  decimalShape ((amazonJoinPrice wf).data.filter (fun c => c != ','))

/-- Amazon's structured price tier: per price selector, the whole-price text
with the optional fraction text (`none` when the selector throws). -/
def amazonStructuredPrice : List (Option (String × Option String)) → Option String
  | [] => none
  | none :: rest => amazonStructuredPrice rest
  | some wf :: rest =>
    if amazonStructQualify wf then some ("AED " ++ amazonJoinPrice wf)
    else amazonStructuredPrice rest

/-- Amazon's offscreen (screen-reader text) fallback tier: per offscreen
element its text and the capture group of
`re.search(r'aed[^\d]*(\d+(?:\.\d+)?)', text.lower())`. -/
def amazonOffscreenPrice : List (String × Option String) → Option String
  | [] => none
  | (text, g) :: rest =>
    if containsLC text "aed" then
      match g with
      | some num => some ("AED " ++ num)
      | none => amazonOffscreenPrice rest
    else amazonOffscreenPrice rest

/-- The price display produced by Amazon's record builder. -/
def amazonPrice (priceResults : List (Option (String × Option String)))
    (offscreens : List (String × Option String)) : String :=
  match amazonStructuredPrice priceResults with
  | some p => p
  | none =>
    match amazonOffscreenPrice offscreens with
    | some p => p
    | none => "Price not available"

theorem titleScan_all_empty :
    ∀ (rs : List (Option String)), (∀ s, some s ∈ rs → s = "") →
      titleScan "" rs = "" := by
  intro rs
  induction rs with
  | nil => intro _; rfl
  | cons r rest ih =>
    intro h
    cases r with
    | none =>
      show titleScan "" rest = ""
      exact ih (fun s hs => h s (by simp [hs]))
    | some s =>
      have hs : s = "" := h s (by simp)
      subst hs
      show (if titleQualifies (some "") = true then "" else titleScan "" rest) = ""
      have hq : titleQualifies (some "") = false := rfl
      rw [hq]
      simp only [Bool.false_eq_true, if_false]
      exact ih (fun s hs => h s (by simp [hs]))

theorem find?_all_false {p : String → Bool} {ls : List String}
    (h : ∀ l ∈ ls, p l = false) : ls.find? p = none :=
  List.find?_eq_none.mpr (fun x hx => by simp [h x hx])

theorem noonStructuredPrice_none :
    ∀ (rs : List (Option String)),
      (∀ s, some s ∈ rs → priceDigitsQualify s = false) →
      noonStructuredPrice rs = none := by
  intro rs
  induction rs with
  | nil => intro _; rfl
  | cons r rest ih =>
    intro h
    cases r with
    | none => exact ih (fun s hs => h s (by simp [hs]))
    | some s =>
      show (if priceDigitsQualify s = true then _ else noonStructuredPrice rest) = none
      rw [h s (by simp)]
      simp only [Bool.false_eq_true, if_false]
      exact ih (fun x hx => h x (by simp [hx]))

theorem noonPatternPrice_none :
    ∀ (gs : List (Option String)),
      (∀ g, some g ∈ gs → noonPatternAccept g = false) →
      noonPatternPrice gs = none := by
  intro gs
  induction gs with
  | nil => intro _; rfl
  | cons r rest ih =>
    intro h
    cases r with
    | none => exact ih (fun g hg => h g (by simp [hg]))
    | some g =>
      show (if noonPatternAccept g = true then _ else noonPatternPrice rest) = none
      rw [h g (by simp)]
      simp only [Bool.false_eq_true, if_false]
      exact ih (fun x hx => h x (by simp [hx]))

theorem noonLastResortLine_none :
    ∀ (ns : List String), (∀ n ∈ ns, lastResortAccept n = false) →
      noonLastResortLine ns = none := by
  intro ns
  induction ns with
  | nil => intro _; rfl
  | cons n rest ih =>
    intro h
    show (if lastResortAccept n = true then _ else noonLastResortLine rest) = none
    rw [h n (by simp)]
    simp only [Bool.false_eq_true, if_false]
    exact ih (fun x hx => h x (by simp [hx]))

theorem noonLastResort_none :
    ∀ (lns : List (List String)),
      (∀ ln ∈ lns, ∀ n ∈ ln, lastResortAccept n = false) →
      noonLastResort lns = none := by
  intro lns
  induction lns with
  | nil => intro _; rfl
  | cons ln rest ih =>
    intro h
    show (match noonLastResortLine ln with
      | some p => some p
      | none => noonLastResort rest) = none
    rw [noonLastResortLine_none ln (h ln (by simp))]
    exact ih (fun x hx => h x (by simp [hx]))

theorem amazonStructuredPrice_none :
    ∀ (rs : List (Option (String × Option String))),
      (∀ wf, some wf ∈ rs → amazonStructQualify wf = false) →
      amazonStructuredPrice rs = none := by
  intro rs
  induction rs with
  | nil => intro _; rfl
  | cons r rest ih =>
    intro h
    cases r with
    | none => exact ih (fun wf hwf => h wf (by simp [hwf]))
    | some wf =>
      show (if amazonStructQualify wf = true then _ else amazonStructuredPrice rest)
        = none
      rw [h wf (by simp)]
      simp only [Bool.false_eq_true, if_false]
      exact ih (fun x hx => h x (by simp [hx]))

theorem amazonOffscreenPrice_none :
    ∀ (os : List (String × Option String)),
      (∀ t g, (t, g) ∈ os → containsLC t "aed" = false ∨ g = none) →
      amazonOffscreenPrice os = none := by
  intro os
  induction os with
  | nil => intro _; rfl
  | cons e rest ih =>
    intro h
    obtain ⟨t, g⟩ := e
    rcases h t g (by simp) with hc | hg
    · show (if containsLC t "aed" = true then _ else amazonOffscreenPrice rest)
        = none
      rw [hc]
      simp only [Bool.false_eq_true, if_false]
      exact ih (fun x y hxy => h x y (by simp [hxy]))
    · subst hg
      show (if containsLC t "aed" = true then amazonOffscreenPrice rest
        else amazonOffscreenPrice rest) = none
      have hrest := ih (fun x y hxy => h x y (by simp [hxy]))
      by_cases hc : containsLC t "aed" = true
      · rw [if_pos hc]; exact hrest
      · rw [if_neg hc]; exact hrest

/-- **C9, counterexample**: a title strategy result can fail to qualify yet
still become the title.  A Noon candidate with one title selector returning
the 5-character text `"short"` (which fails the `len > 10` qualification)
and an empty full text (so no fallback line qualifies) yields the title
`"short"`, not `"Unknown Product"`: the loop retains the last truthy
non-qualifying value and the `if not title` fallback is skipped. -/
theorem extractor_defaults_cex :
    titleQualifies (some "short") = false ∧
    textLines "" = [] ∧
    noonTitle [some "short"] "" = "short" ∧
    ("short" : String) ≠ "Unknown Product" := by
  exact ⟨by decide, by decide, by decide, by decide⟩

/-- **C9, amended**: for every candidate whose every title strategy finds
nothing truthy (the selector throws or yields only empty text) and whose
every fallback text line fails the title predicate, the built title equals
`"Unknown Product"`; for every candidate where no price strategy qualifies
and no fallback regex pattern (and, for Noon, no last-resort number) is
accepted, the price display equals `"Price not available"`; the builders are
total functions, so an unextractable field never raises.  (A title strategy
that returns a truthy but non-qualifying text is retained as the title.) -/
theorem extractor_defaults
    (noonTR : List (Option String)) (noonFT : String)
    (noonPR patternG : List (Option String)) (lineNums : List (List String))
    (amzTR : List (Option String)) (amzFT : String)
    (amzPR : List (Option (String × Option String)))
    (amzOff : List (String × Option String)) :
    ((∀ s, some s ∈ noonTR → s = "") →
      (∀ l ∈ textLines noonFT, noonTitleLinePred l = false) →
      noonTitle noonTR noonFT = "Unknown Product") ∧
    ((∀ s, some s ∈ noonPR → priceDigitsQualify s = false) →
      (∀ g, some g ∈ patternG → noonPatternAccept g = false) →
      (∀ ln ∈ lineNums, ∀ n ∈ ln, lastResortAccept n = false) →
      noonPrice noonPR patternG lineNums = "Price not available") ∧
    ((∀ s, some s ∈ amzTR → s = "") →
      (∀ l ∈ textLines amzFT, amazonTitleLinePred l = false) →
      amazonTitle amzTR amzFT = "Unknown Product") ∧
    ((∀ wf, some wf ∈ amzPR → amazonStructQualify wf = false) →
      (∀ t g, (t, g) ∈ amzOff → containsLC t "aed" = false ∨ g = none) →
      amazonPrice amzPR amzOff = "Price not available") := by
  refine ⟨?_, ?_, ?_, ?_⟩
  · intro h1 h2
    show cleanTitle 100 (titleWithFallback noonTitleLinePred noonTR noonFT) = _
    rw [titleWithFallback]
    rw [titleScan_all_empty noonTR h1, find?_all_false h2]
    decide
  · intro h1 h2 h3
    rw [noonPrice, noonStructuredPrice_none noonPR h1,
      noonPatternPrice_none patternG h2, noonLastResort_none lineNums h3]
  · intro h1 h2
    show cleanTitle 150 (titleWithFallback amazonTitleLinePred amzTR amzFT) = _
    rw [titleWithFallback]
    rw [titleScan_all_empty amzTR h1, find?_all_false h2]
    decide
  · intro h1 h2
    rw [amazonPrice, amazonStructuredPrice_none amzPR h1,
      amazonOffscreenPrice_none amzOff h2]

theorem extractor_defaults_witness :
    noonTitle [] "" = "Unknown Product" ∧
    noonPrice [] [] [] = "Price not available" ∧
    amazonTitle [] "" = "Unknown Product" ∧
    amazonPrice [] [] = "Price not available" := by
  obtain ⟨h1, h2, h3, h4⟩ := extractor_defaults [] "" [] [] [] [] "" [] []
  refine ⟨h1 (by simp) ?_, h2 (by simp) (by simp) (by simp),
    h3 (by simp) ?_, h4 (by simp) (by simp)⟩
  · intro l hl
    rw [(by decide : textLines "" = [])] at hl
    exact absurd hl (List.not_mem_nil l)
  · intro l hl
    rw [(by decide : textLines "" = [])] at hl
    exact absurd hl (List.not_mem_nil l)

end ItemFinder
